import Mathlib

/-!
Verification development for the AgriAssist retrieval-and-offline-cache
subsystem.  The Python source is shallowly embedded: SQLite tables become
lists of row structures in rowid (insertion) order, wall-clock readings
become explicit natural-number arguments (a single logical clock shared by
the Python process and the database, in seconds), floating point weights
become rationals, and fallible external calls become `Except` valued
oracles.  Each definition mirrors one function of the source tree.
-/

namespace OfflineHandler

/-- Row of the `weather_cache` table (`init_database` in
`src/utils/offline_handler.py`).  The table has an autoincrement `id`
primary key and NO uniqueness constraint on `location`; rows are kept in
insertion order, which models rowid order.  The payload column
`weather_data` holds an opaque serialized value, modelled by a type
parameter. -/
structure WeatherRow (α : Type) where
  location : String
  weather_data : α
  timestamp : Nat
  expires_at : Nat
deriving DecidableEq, Repr

/-- Row of the `recommendations_cache` table: here `cache_key` carries a
UNIQUE constraint. -/
structure RecRow (α : Type) where
  cache_key : String
  recommendation_data : α
  timestamp : Nat
  expires_at : Nat
deriving DecidableEq, Repr

/-- `OfflineHandler.cache_weather_data`: `INSERT OR REPLACE INTO
weather_cache (location, weather_data, expires_at) VALUES (?,?,?)` with
`expires_at = datetime.now() + timedelta(hours=cache_hours)`.  Since the
table has no uniqueness constraint applicable to these columns, `INSERT OR
REPLACE` behaves as a plain insert: a new row is appended.  `now` is the
clock in seconds, so the timedelta is `3600 * cache_hours`. -/
def cache_weather_data {α : Type} (st : List (WeatherRow α)) (location : String)
    (v : α) (now : Nat) (cache_hours : Nat) : List (WeatherRow α) :=
  st ++ [⟨location, v, now, now + 3600 * cache_hours⟩]

/-- Folding step realising `ORDER BY timestamp DESC LIMIT 1` over the rows
that survive the WHERE clause: keep the row with the largest timestamp
(the first such row encountered if several tie). -/
def pick_latest {ρ : Type} (ts : ρ → Nat) (acc : Option ρ) (r : ρ) : Option ρ :=
  match acc with
  | none => some r
  | some b => if ts b < ts r then some r else some b

/-- `OfflineHandler.get_cached_weather`: `SELECT weather_data FROM
weather_cache WHERE location = ? AND expires_at > CURRENT_TIMESTAMP ORDER BY
timestamp DESC LIMIT 1`, then `json.loads` of the payload (the serialization
round trip is modelled as the identity). -/
def get_cached_weather {α : Type} (st : List (WeatherRow α)) (location : String)
    (now : Nat) : Option α :=
  let valid := st.filter (fun r => r.location == location && decide (now < r.expires_at))
  (valid.foldl (pick_latest (fun r => r.timestamp)) none).map (fun r => r.weather_data)

/-- `OfflineHandler.cache_recommendation`: `INSERT OR REPLACE INTO
recommendations_cache (cache_key, recommendation_data, expires_at)`.  Here
`cache_key` is UNIQUE, so `INSERT OR REPLACE` deletes any conflicting row and
inserts the new one at a fresh rowid (modelled: filter out the key, append). -/
def cache_recommendation {α : Type} (st : List (RecRow α)) (key : String)
    (v : α) (now : Nat) (cache_hours : Nat) : List (RecRow α) :=
  (st.filter (fun r => !(r.cache_key == key))) ++ [⟨key, v, now, now + 3600 * cache_hours⟩]

/-- `OfflineHandler.get_cached_recommendation`: same SELECT shape as the
weather read, over `recommendations_cache` keyed by `cache_key`. -/
def get_cached_recommendation {α : Type} (st : List (RecRow α)) (key : String)
    (now : Nat) : Option α :=
  let valid := st.filter (fun r => r.cache_key == key && decide (now < r.expires_at))
  (valid.foldl (pick_latest (fun r => r.timestamp)) none).map (fun r => r.recommendation_data)

/-- Row of the `queries` table. -/
structure QueryRow where
  id : Nat
  query_text : String
  response_text : Option String
  language : String
  intent : Option String
  timestamp : Nat
  processed : Bool
deriving DecidableEq, Repr

/-- `OfflineHandler.store_query`: INSERT with `processed = (response is not
None)`; returns the new autoincrement id (`cursor.lastrowid`).  Rows are never
deleted, so the next rowid is `length + 1`. -/
def store_query (st : List QueryRow) (query : String) (response : Option String)
    (language : String) (intent : Option String) (now : Nat) :
    List QueryRow × Nat :=
  let id := st.length + 1
  (st ++ [⟨id, query, response, language, intent, now, response.isSome⟩], id)

/-- `OfflineHandler.update_query_response`: `UPDATE queries SET response_text
= ?, processed = TRUE WHERE id = ?`. -/
def update_query_response (st : List QueryRow) (query_id : Nat)
    (response : String) : List QueryRow :=
  st.map (fun r =>
    if r.id == query_id then
      { r with response_text := some response, processed := true }
    else r)

/-- Projection returned by `get_unprocessed_queries`: the SELECT list is
`id, query_text, language, intent, timestamp`. -/
structure UnprocessedEntry where
  id : Nat
  query : String
  language : String
  intent : Option String
  timestamp : Nat
deriving DecidableEq, Repr

/-- `OfflineHandler.get_unprocessed_queries`: `SELECT id, query_text,
language, intent, timestamp FROM queries WHERE processed = FALSE ORDER BY
timestamp ASC`.  The ORDER BY is modelled by a stable insertion sort on the
timestamp, so rows with equal timestamps keep their rowid order. -/
def get_unprocessed_queries (st : List QueryRow) : List UnprocessedEntry :=
  ((st.filter (fun r => !r.processed)).insertionSort
      (fun a b => a.timestamp ≤ b.timestamp)).map
    (fun r => ⟨r.id, r.query_text, r.language, r.intent, r.timestamp⟩)

end OfflineHandler

/-- Document shape produced by `RAGSystem.load_agricultural_data`: a content
string tagged with a type (`soil`, `crop`, `scheme`) and a category key. -/
structure Document where
  content : String
  type : String
  category : String
deriving DecidableEq, Repr, Inhabited

/-- Python `str.lower()`, applied character-wise. -/
def py_lower (s : String) : String := String.mk (s.toList.map Char.toLower)

/-- Helper of `py_split_whitespace`: walk the characters accumulating the
current word (reversed). -/
def words_aux : List Char → List Char → List String
  | [], acc => if acc.isEmpty then [] else [String.mk acc.reverse]
  | c :: cs, acc =>
    if c.isWhitespace then
      if acc.isEmpty then words_aux cs []
      else String.mk acc.reverse :: words_aux cs []
    else words_aux cs (c :: acc)

/-- Python `str.split()` with no argument: maximal runs of non-whitespace
characters, no empty words. -/
def py_split_whitespace (s : String) : List String := words_aux s.toList []

namespace RAGSystem

/-- `RAGSystem.get_embeddings` restricted to one text: split the lowercased
text on whitespace, keep the first 100 words, and set position `i` of a
`dim`-length vector to `len(word_i) * 0.1`; every other position is zero. -/
def get_embedding (dim : Nat) (text : String) : List ℚ :=
  let ws := (py_split_whitespace (py_lower text)).take 100
  (List.range dim).map (fun i =>
    match ws.get? i with
    | some w => (w.length : ℚ) * (1 / 10)
    | none => 0)

/-- Raw per-document embeddings computed in `build_vector_store`. -/
def raw_embeddings (docs : List Document) (dim : Nat) : List (List ℚ) :=
  docs.map (fun d => get_embedding dim d.content)

/-- The embedding list that `build_vector_store` actually passes to
`faiss.normalize_L2` and `index.add`: if the list is empty or every raw
vector has zero sum, ALL of them are replaced by random vectors (`rand i`
models the i-th draw of `np.random.rand(dim)`); otherwise the raw vectors
are used unchanged. -/
def chosen_embeddings (docs : List Document) (dim : Nat)
    (rand : Nat → List ℚ) : List (List ℚ) :=
  let embs := raw_embeddings docs dim
  if embs.isEmpty || embs.all (fun e => e.sum == 0) then
    (List.range docs.length).map rand
  else embs

/-- `RAGSystem.build_vector_store`: with no documents the index is left
unset (`none`); otherwise the chosen embeddings are L2-normalized (the
external `faiss.normalize_L2`, modelled by the oracle `normFn`) and added to
a fresh flat inner-product index, modelled as the stored vector list. -/
def build_vector_store (docs : List Document) (dim : Nat)
    (rand : Nat → List ℚ) (normFn : List ℚ → List ℚ) : Option (List (List ℚ)) :=
  if docs.isEmpty then none
  else some ((chosen_embeddings docs dim rand).map normFn)

/-- Inner product of two stored vectors. -/
def dot (u v : List ℚ) : ℚ := (List.zipWith (fun a b => a * b) u v).sum

/-- Ordering used by the flat inner-product FAISS search: higher score
first, ties by ascending insertion id. -/
def faissRel (a b : Nat × ℚ) : Prop := b.2 < a.2 ∨ (a.2 = b.2 ∧ a.1 ≤ b.1)

instance : DecidableRel faissRel := fun a b => by
  unfold faissRel; exact instDecidableOr

instance : IsTotal (Nat × ℚ) faissRel where
  total a b := by
    unfold faissRel
    rcases lt_trichotomy a.2 b.2 with h | h | h
    · exact Or.inr (Or.inl h)
    · rcases Nat.le_total a.1 b.1 with hi | hi
      · exact Or.inl (Or.inr ⟨h, hi⟩)
      · exact Or.inr (Or.inr ⟨h.symm, hi⟩)
    · exact Or.inl (Or.inl h)

instance : IsTrans (Nat × ℚ) faissRel where
  trans a b c hab hbc := by
    unfold faissRel at *
    rcases hab with h1 | ⟨h1, h1i⟩
    · rcases hbc with h2 | ⟨h2, _⟩
      · exact Or.inl (h2.trans h1)
      · exact Or.inl (h2 ▸ h1)
    · rcases hbc with h2 | ⟨h2, h2i⟩
      · exact Or.inl (h1 ▸ h2)
      · exact Or.inr ⟨h1.trans h2, h1i.trans h2i⟩

/-- Contract of `faiss.IndexFlatIP.search` over the stored vectors: every
stored id is scored, the ids are ranked by descending score with ties broken
by ascending id, and the first `k` pairs `(id, score)` are returned. -/
def faissTopK (scores : List ℚ) (k : Nat) : List (Nat × ℚ) :=
  (scores.enum.insertionSort faissRel).take k

/-- Result dictionary of `RAGSystem.search`: a copy of the document dict,
optionally extended with `score` and `rank` keys (the degenerate-query
fallback returns the documents without those keys). -/
structure SearchHit where
  doc : Document
  score : Option ℚ
  rank : Option Nat
deriving DecidableEq, Repr

/-- `RAGSystem.search`: empty result when the index is unbuilt or the
document list is empty; for a query whose embedding sums to zero, the first
`top_k` documents are returned unscored; otherwise the normalized query is
scored against the index and the top `min(top_k, N)` hits are returned with
`score` and `rank = i + 1`, guarded by `idx < len(documents)`. -/
def search (docs : List Document) (index : Option (List (List ℚ))) (dim : Nat)
    (normFn : List ℚ → List ℚ) (query : String) (top_k : Nat) : List SearchHit :=
  match index with
  | none => []
  | some stored =>
    if docs.isEmpty then []
    else
      let qe := get_embedding dim query
      if qe.sum == 0 then
        (docs.take top_k).map (fun d => ⟨d, none, none⟩)
      else
        let qv := normFn qe
        let hits := faissTopK (stored.map (fun v => dot qv v)) (min top_k docs.length)
        hits.enum.filterMap (fun p =>
          match docs.get? p.2.1 with
          | some d => some ⟨d, some p.2.2, some (p.1 + 1)⟩
          | none => none)

/-- Header line of `RAGSystem.get_context`. -/
def context_header : String := "Relevant agricultural information:\n\n"

/-- One appended document line: `f"- {doc['content']}\n"`. -/
def doc_line (content : String) : String := "- " ++ content ++ "\n"

/-- Loop body of `get_context`: append whole document lines while the
running length stays within the budget; the first line that would overflow
stops the loop. -/
def context_loop (max_context_length : Nat) : List String → String → String
  | [], context => context
  | c :: cs, context =>
    if context.length + (doc_line c).length ≤ max_context_length then
      context_loop max_context_length cs (context ++ doc_line c)
    else context

/-- Concatenation of a list of lines. -/
def concat_lines : List String → String
  | [] => ""
  | s :: t => s ++ concat_lines t

/-- `RAGSystem.get_context` over the contents of the retrieved documents (the
source retrieves them with `search(query, top_k=5)` and reads
`doc['content']`). -/
def get_context (doc_contents : List String) (max_context_length : Nat) : String :=
  context_loop max_context_length doc_contents context_header

end RAGSystem

namespace NLPProcessor

/-- Check whether the first char list begins the second one. -/
def starts_with_chars : List Char → List Char → Bool
  | [], _ => true
  | _ :: _, [] => false
  | a :: p, b :: s => a == b && starts_with_chars p s

/-- Substring test on char lists: the Python `pattern in text` operator. -/
def contains_sub (p : List Char) : List Char → Bool
  | [] => starts_with_chars p []
  | b :: t => starts_with_chars p (b :: t) || contains_sub p t

/-- Python `pattern in text_lower` on strings. -/
def py_in (pat text : String) : Bool := contains_sub pat.toList text.toList

/-- `NLPProcessor.intent_patterns`: the fixed multilingual trigger-term sets,
in dict insertion order. -/
def intent_patterns : List (String × List String) :=
  [ ("crop_recommendation",
      ["crop", "seed", "plant", "grow", "cultivation", "farming", "harvest",
       "फसल", "बीज", "खेती", "उगाना", "बोना"]),
    ("irrigation",
      ["water", "irrigation", "watering", "rain", "drought", "moisture",
       "पानी", "सिंचाई", "बारिश", "सूखा"]),
    ("government_schemes",
      ["scheme", "subsidy", "government", "loan", "insurance", "support",
       "योजना", "सब्सिडी", "सरकार", "लोन", "बीमा", "सहायता"]),
    ("fertilizer",
      ["fertilizer", "manure", "nutrition", "nutrient", "soil health",
       "खाद", "उर्वरक", "पोषण"]) ]

/-- Number of trigger terms of one intent found in the lowercased text:
`sum(1 for pattern in patterns if pattern in text_lower)`. -/
def pattern_count (text_lower : String) (patterns : List String) : Nat :=
  (patterns.filter (fun p => py_in p text_lower)).length

/-- Relative score stored in `intent_scores` for an intent with a positive
hit count: `score / len(patterns)`. -/
def pattern_score (text_lower : String) (patterns : List String) : ℚ :=
  (pattern_count text_lower patterns : ℚ) / (patterns.length : ℚ)

/-- `NLPProcessor._fallback_intent_classification` (intent and confidence;
the `entities` field is always the empty list).  Intents with a zero hit
count are not entered into `intent_scores`; `max(intent_scores,
key=intent_scores.get)` returns the first key attaining the maximum in dict
insertion order, modelled by a left fold that replaces the best candidate
only on a strictly larger score. -/
def fallback_intent_classification (text : String) : String × ℚ :=
  match intent_patterns.filterMap (fun ip =>
      if 0 < pattern_count (py_lower text) ip.2 then
        some (ip.1, pattern_score (py_lower text) ip.2)
      else none) with
  | [] => ("general", 1 / 2)
  | x :: xs => xs.foldl (fun best y => if best.2 < y.2 then y else best) x

end NLPProcessor

/-- Weather snapshot dictionary returned by `DataFetcher.get_weather_data`
(the ISO `timestamp` field is omitted: it is wall-clock presentation data
and never read by the core). -/
structure Weather where
  temperature : ℚ
  humidity : ℚ
  rainfall : ℚ
  wind_speed : ℚ
  weather_description : String
  pressure : ℚ
  visibility : ℚ
  source : String
deriving DecidableEq, Repr

/-- The hard-coded default snapshot at the end of `get_weather_data`. -/
def default_weather : Weather :=
  { temperature := 25, humidity := 60, rainfall := 0, wind_speed := 10,
    weather_description := "data unavailable", pressure := 1013,
    visibility := 10, source := "default" }

/-- Outcome of the provider HTTP call: `ok` is a 200 response whose body
parsed into the snapshot fields; `failed` covers timeout, raised request
exceptions, malformed bodies and every non-200 status (all of which fall
through to the fallback code). -/
inductive ApiOutcome where
  | ok (w : Weather)
  | failed
deriving DecidableEq, Repr

namespace DataFetcher

/-- `DataFetcher.get_weather_data`: if an API key is configured and the
provider call is usable, return its snapshot (tagged `source = "api"`);
otherwise look up the lowercased city in the static backup file
`data/weather_backup.json` (tagged `source = "backup"`); otherwise return
the static default snapshot.  The SQLite weather cache is not a parameter
because the source never consults it here. -/
def get_weather_data (api_key_present : Bool) (api : ApiOutcome)
    (backup_cities : List (String × Weather)) (city : String) : Weather :=
  match api_key_present, api with
  | true, ApiOutcome.ok w => { w with source := "api" }
  | _, _ =>
    match backup_cities.lookup (py_lower city) with
    | some b => { b with source := "backup" }
    | none => default_weather

end DataFetcher

/-- Flat view of the dictionary returned by `NLPProcessor.process_query`:
the fields of the result that `generate_response` reads
(`intent.intent`, `response`, `confidence`). -/
structure NlpOut where
  intent : String
  confidence : ℚ
  response : String
deriving DecidableEq, Repr

/-- Structured result of `AgriAssistApp.generate_response` (`text`,
`sources`, `confidence`, and the `intent` key that only the success path
adds). -/
structure GenResult where
  text : String
  sources : List String
  confidence : ℚ
  intent : Option String
deriving DecidableEq, Repr

/-- Python `str.title()` as applied to the single-word document type tags
`soil` / `crop` / `scheme`. -/
def py_title (s : String) : String := s.capitalize

namespace AgriAssistApp

/-- Environment of one `generate_response` call: the session settings and
the component calls it performs.  Calls whose own bodies are fully guarded
by `try/except` in the source (`store_query`) are total; the remaining
component calls are `Except`-valued oracles, so the theorems quantify over
every possible failure behaviour. -/
structure GenEnv where
  ai_enabled : Bool
  rag_present : Bool
  language : String
  location : String
  store_query : String → String → Int
  process_query : String → Except String NlpOut
  get_context : String → Except String String
  search_top3 : String → Except String (List Document)
  get_weather : String → Except String Weather
  irrigation_rec : Weather → Except String String
  translate_from_english : String → String → Except String String

/-- The early return taken when `self.ai_enabled` is false. -/
def ai_offline_result : GenResult :=
  { text := "AI services are currently offline. Please check your internet connection and API keys.",
    sources := [], confidence := 0, intent := none }

/-- The dictionary returned by the enclosing `except` handler. -/
def error_fallback : GenResult :=
  { text := "I apologize, but I encountered an error while processing your request.",
    sources := [], confidence := 0, intent := none }

/-- Body of the `try` block of `AgriAssistApp.generate_response`: store the
query, bail out early when AI is disabled, run the NLP pipeline, gather RAG
context and sources, extend the context with weather data for irrigation
queries (the context string is computed but never read afterwards), and
return the response dictionary.  An `Except.error` models an exception
escaping to the `except` handler. -/
def generate_response_body (env : GenEnv) (query : String) :
    Except String GenResult := do
  let _ := env.store_query query env.language
  if !env.ai_enabled then
    return ai_offline_result
  let nlp ← env.process_query query
  let intent := nlp.intent
  let pair ←
    if env.rag_present then do
      let context ← env.get_context query
      let docs ← env.search_top3 query
      pure (context, docs.map (fun d => py_title d.type ++ ": " ++ d.category))
    else pure ("", [])
  let _context ←
    if intent == "irrigation" then do
      let w ← env.get_weather env.location
      let irr ← env.irrigation_rec w
      pure (pair.1 ++ "\n\nCurrent weather: " ++ w.weather_description ++
        ", Temperature: " ++ toString w.temperature ++ "°C, Humidity: " ++
        toString w.humidity ++ "%. Irrigation recommendation: " ++ irr)
    else pure pair.1
  let response_text := nlp.response
  let response_text ←
    if !(env.language == "en") then
      env.translate_from_english response_text env.language
    else pure response_text
  return { text := response_text, sources := pair.2,
           confidence := nlp.confidence, intent := some intent }

/-- `AgriAssistApp.generate_response`: the `try` body with its `except`
handler, which recovers every escaped exception into `error_fallback`. -/
def generate_response (env : GenEnv) (query : String) : GenResult :=
  match generate_response_body env query with
  | Except.ok r => r
  | Except.error _ => error_fallback

end AgriAssistApp

/-- A sequence of `cache_weather_data` writes for one location applied to an
initially empty `weather_cache` table: each triple is (payload, write time,
cache_hours). -/
def OfflineHandler.apply_weather_writes {α : Type} (loc : String)
    (ws : List (α × Nat × Nat)) : List (OfflineHandler.WeatherRow α) :=
  ws.foldl (fun st w => OfflineHandler.cache_weather_data st loc w.1 w.2.1 w.2.2) []

namespace OfflineHandler

/-- Folding `pick_latest` over a list that ends in a row strictly newer than
everything before it (and than the accumulator) yields that row. -/
theorem foldl_pick_latest_last {ρ : Type} (ts : ρ → Nat) (l : List ρ) (r : ρ)
    (acc : Option ρ) (hacc : ∀ b, acc = some b → ts b < ts r)
    (hl : ∀ b ∈ l, ts b < ts r) :
    (l ++ [r]).foldl (pick_latest ts) acc = some r := by
  induction l generalizing acc with
  | nil =>
    simp only [List.nil_append, List.foldl_cons, List.foldl_nil]
    cases acc with
    | none => rfl
    | some b =>
      simp only [pick_latest, if_pos (hacc b rfl)]
  | cons a t ih =>
    simp only [List.cons_append, List.foldl_cons]
    refine ih (pick_latest ts acc a) ?_ (fun b hb => hl b (List.mem_cons_of_mem a hb))
    intro b hb
    have ha : ts a < ts r := hl a (List.mem_cons_self a t)
    cases acc with
    | none =>
      simp only [pick_latest] at hb
      cases hb; exact ha
    | some c =>
      simp only [pick_latest] at hb
      by_cases hc : ts c < ts a
      · rw [if_pos hc] at hb; cases hb; exact ha
      · rw [if_neg hc] at hb; cases hb; exact hacc _ rfl

end OfflineHandler

/-- C2: the claim asserts upsert semantics for BOTH cache namespaces, in
particular that a second `put` with the same key retains only the second
value.  Refutation at a concrete input: the `weather_cache` table has no
uniqueness constraint on `location`, so `INSERT OR REPLACE` accumulates
rows, and after two writes for "Delhi" both stored entries are still
present. -/
theorem C2_counterexample :
    (OfflineHandler.cache_weather_data
        (OfflineHandler.cache_weather_data
          ([] : List (OfflineHandler.WeatherRow String)) "Delhi" "first" 0 1)
        "Delhi" "second" 60 1).filter (fun r => r.location == "Delhi")
      = [⟨"Delhi", "first", 0, 3600⟩, ⟨"Delhi", "second", 60, 3660⟩] := by
  decide

/-- C2 (amended): upsert semantics — at most one stored entry per key,
second write wins — hold for the recommendation cache, whose `cache_key` is
UNIQUE; a positive-TTL `put` there is immediately observable by `get`.  For
the weather cache rows accumulate instead, but a positive-TTL `put` whose
timestamp is newer than every existing row is still the value an immediate
`get` observes. -/
theorem C2_amended_upsert :
    (∀ (α : Type) (st : List (OfflineHandler.RecRow α)) (key : String)
        (v v' : α) (t t' h h' : Nat),
      (OfflineHandler.cache_recommendation
          (OfflineHandler.cache_recommendation st key v t h) key v' t' h').filter
          (fun r => r.cache_key == key)
        = [⟨key, v', t', t' + 3600 * h'⟩])
  ∧ (∀ (α : Type) (st : List (OfflineHandler.RecRow α)) (key : String)
        (v : α) (now h : Nat), 0 < h →
      OfflineHandler.get_cached_recommendation
          (OfflineHandler.cache_recommendation st key v now h) key now = some v)
  ∧ (∀ (α : Type) (st : List (OfflineHandler.WeatherRow α)) (loc : String)
        (v : α) (now h : Nat), 0 < h → (∀ r ∈ st, r.timestamp < now) →
      OfflineHandler.get_cached_weather
          (OfflineHandler.cache_weather_data st loc v now h) loc now = some v) := by
  refine ⟨?_, ?_, ?_⟩
  · intro α st key v v' t t' h h'
    simp only [OfflineHandler.cache_recommendation, List.filter_append,
      List.filter_filter]
    have h1 : ∀ (l : List (OfflineHandler.RecRow α)),
        l.filter (fun r => (r.cache_key == key) && !(r.cache_key == key)) = [] := by
      intro l
      refine List.filter_eq_nil_iff.mpr (fun r _ => ?_)
      cases hb : r.cache_key == key <;> simp [hb]
    simp [h1, List.filter_filter]
  · intro α st key v now h hpos
    simp only [OfflineHandler.get_cached_recommendation,
      OfflineHandler.cache_recommendation, List.filter_append]
    have h1 : (st.filter (fun r => !(r.cache_key == key))).filter
        (fun r => r.cache_key == key && decide (now < r.expires_at)) = [] := by
      refine List.filter_eq_nil_iff.mpr (fun r hr => ?_)
      have hne := List.of_mem_filter hr
      simp only [Bool.not_eq_eq_eq_not, Bool.not_true, beq_eq_false_iff_ne,
        ne_eq] at hne
      simp [hne]
    have h2 : 0 < 3600 * h := by positivity
    simp [h1, h2, OfflineHandler.pick_latest, List.foldl_cons, List.foldl_nil]
  · intro α st loc v now h hpos hts
    simp only [OfflineHandler.get_cached_weather, OfflineHandler.cache_weather_data,
      List.filter_append]
    have h2 : 0 < 3600 * h := by positivity
    have hrow : ([(⟨loc, v, now, now + 3600 * h⟩ : OfflineHandler.WeatherRow α)].filter
        (fun r => r.location == loc && decide (now < r.expires_at)))
        = [⟨loc, v, now, now + 3600 * h⟩] := by
      simp [h2]
    have hfold := OfflineHandler.foldl_pick_latest_last
      (fun (r : OfflineHandler.WeatherRow α) => r.timestamp)
      (st.filter (fun r => r.location == loc && decide (now < r.expires_at)))
      ⟨loc, v, now, now + 3600 * h⟩ none
      (by intro b hb; cases hb)
      (by intro b hb; exact hts b (List.mem_of_mem_filter hb))
    rw [hrow, hfold]
    rfl

/-- C2 witness: concrete application of the amended theorem — a double write
to the recommendation cache keeps exactly the second row, a positive-TTL
recommendation write is immediately readable, and so is a weather write
newer than the existing rows. -/
theorem C2_amended_upsert_witness :
    ((OfflineHandler.cache_recommendation
        (OfflineHandler.cache_recommendation
          ([] : List (OfflineHandler.RecRow String)) "k" "a" 0 1) "k" "b" 5 2).filter
        (fun r => r.cache_key == "k") = [⟨"k", "b", 5, 5 + 3600 * 2⟩])
  ∧ OfflineHandler.get_cached_recommendation
      (OfflineHandler.cache_recommendation
        ([] : List (OfflineHandler.RecRow String)) "k" "a" 0 1) "k" 0 = some "a"
  ∧ OfflineHandler.get_cached_weather
      (OfflineHandler.cache_weather_data
        [(⟨"Delhi", "old", 0, 9000⟩ : OfflineHandler.WeatherRow String)]
        "Delhi" "new" 60 1) "Delhi" 60 = some "new" :=
  ⟨C2_amended_upsert.1 String [] "k" "a" "b" 0 5 1 2,
   C2_amended_upsert.2.1 String [] "k" "a" 0 1 (by decide),
   C2_amended_upsert.2.2 String [⟨"Delhi", "old", 0, 9000⟩] "Delhi" "new" 60 1
     (by decide) (by decide)⟩

/-- C5: in both cache namespaces `get` returns absent when every stored
entry for the key has passed its expiry (which covers the case of no entry
at all, the hypothesis then being vacuous); an entry written with
`cache_hours = 0` is treated as absent by an immediately following `get`:
for the weather namespace the read behaves exactly as if the write had not
happened, for the recommendation namespace the write also replaced any
previous entry, so the read returns absent. -/
theorem C5_ttl_expiry :
    (∀ (α : Type) (st : List (OfflineHandler.WeatherRow α)) (loc : String) (now : Nat),
      (∀ r ∈ st, r.location = loc → r.expires_at ≤ now) →
      OfflineHandler.get_cached_weather st loc now = none)
  ∧ (∀ (α : Type) (st : List (OfflineHandler.RecRow α)) (key : String) (now : Nat),
      (∀ r ∈ st, r.cache_key = key → r.expires_at ≤ now) →
      OfflineHandler.get_cached_recommendation st key now = none)
  ∧ (∀ (α : Type) (st : List (OfflineHandler.WeatherRow α)) (loc : String)
        (v : α) (now : Nat),
      OfflineHandler.get_cached_weather
          (OfflineHandler.cache_weather_data st loc v now 0) loc now
        = OfflineHandler.get_cached_weather st loc now)
  ∧ (∀ (α : Type) (st : List (OfflineHandler.RecRow α)) (key : String)
        (v : α) (now : Nat),
      OfflineHandler.get_cached_recommendation
          (OfflineHandler.cache_recommendation st key v now 0) key now = none) := by
  refine ⟨?_, ?_, ?_, ?_⟩
  · intro α st loc now hexp
    have h1 : st.filter (fun r => r.location == loc && decide (now < r.expires_at)) = [] := by
      refine List.filter_eq_nil_iff.mpr (fun r hr => ?_)
      by_cases hl : r.location = loc
      · have := hexp r hr hl
        simp [hl, Nat.not_lt.mpr this]
      · simp [hl]
    simp [OfflineHandler.get_cached_weather, h1]
  · intro α st key now hexp
    have h1 : st.filter (fun r => r.cache_key == key && decide (now < r.expires_at)) = [] := by
      refine List.filter_eq_nil_iff.mpr (fun r hr => ?_)
      by_cases hl : r.cache_key = key
      · have := hexp r hr hl
        simp [hl, Nat.not_lt.mpr this]
      · simp [hl]
    simp [OfflineHandler.get_cached_recommendation, h1]
  · intro α st loc v now
    simp [OfflineHandler.get_cached_weather, OfflineHandler.cache_weather_data,
      List.filter_append]
  · intro α st key v now
    have h1 : (st.filter (fun r => !(r.cache_key == key))).filter
        (fun r => r.cache_key == key && decide (now < r.expires_at)) = [] := by
      refine List.filter_eq_nil_iff.mpr (fun r hr => ?_)
      have hne := List.of_mem_filter hr
      simp only [Bool.not_eq_eq_eq_not, Bool.not_true, beq_eq_false_iff_ne,
        ne_eq] at hne
      simp [hne]
    simp [OfflineHandler.get_cached_recommendation,
      OfflineHandler.cache_recommendation, List.filter_append, h1]

/-- C5 witness: a lone expired "Delhi" row reads as absent, the same for an
expired recommendation row, a zero-TTL weather write leaves the read
unchanged, and a zero-TTL recommendation write reads as absent. -/
theorem C5_ttl_expiry_witness :
    OfflineHandler.get_cached_weather
        [(⟨"Delhi", "stale", 0, 100⟩ : OfflineHandler.WeatherRow String)] "Delhi" 100 = none
  ∧ OfflineHandler.get_cached_recommendation
        [(⟨"k", "stale", 0, 100⟩ : OfflineHandler.RecRow String)] "k" 100 = none
  ∧ OfflineHandler.get_cached_weather
        (OfflineHandler.cache_weather_data
          ([] : List (OfflineHandler.WeatherRow String)) "Delhi" "v" 50 0) "Delhi" 50
      = OfflineHandler.get_cached_weather ([] : List (OfflineHandler.WeatherRow String)) "Delhi" 50
  ∧ OfflineHandler.get_cached_recommendation
        (OfflineHandler.cache_recommendation
          ([] : List (OfflineHandler.RecRow String)) "k" "v" 50 0) "k" 50 = none :=
  ⟨C5_ttl_expiry.1 String [⟨"Delhi", "stale", 0, 100⟩] "Delhi" 100 (by decide),
   C5_ttl_expiry.2.1 String [⟨"k", "stale", 0, 100⟩] "k" 100 (by decide),
   C5_ttl_expiry.2.2.1 String [] "Delhi" "v" 50,
   C5_ttl_expiry.2.2.2 String [] "k" "v" 50⟩

namespace OfflineHandler

/-- Unrolling the write sequence: the table built by `apply_weather_writes`
is exactly one row per write, in write order. -/
theorem apply_weather_writes_eq_map {α : Type} (loc : String)
    (ws : List (α × Nat × Nat)) :
    apply_weather_writes loc ws
      = ws.map (fun w => (⟨loc, w.1, w.2.1, w.2.1 + 3600 * w.2.2⟩ : WeatherRow α)) := by
  have h : ∀ (l : List (α × Nat × Nat)) (st : List (WeatherRow α)),
      l.foldl (fun st w => cache_weather_data st loc w.1 w.2.1 w.2.2) st
        = st ++ l.map (fun w => (⟨loc, w.1, w.2.1, w.2.1 + 3600 * w.2.2⟩ : WeatherRow α)) := by
    intro l
    induction l with
    | nil => intro st; simp
    | cons a t ih =>
      intro st
      rw [List.foldl_cons, ih]
      simp [cache_weather_data]
  simpa [apply_weather_writes] using h ws []

/-- Appending a row that fails the WHERE clause does not change the read. -/
theorem get_cached_weather_append_stale {α : Type} (st : List (WeatherRow α))
    (r : WeatherRow α) (loc : String) (now : Nat)
    (h : (r.location == loc && decide (now < r.expires_at)) = false) :
    get_cached_weather (st ++ [r]) loc now = get_cached_weather st loc now := by
  simp [get_cached_weather, List.filter_append, h]

/-- Appending a valid row strictly newer than everything else makes it the
row the read returns. -/
theorem get_cached_weather_append_fresh {α : Type} (st : List (WeatherRow α))
    (r : WeatherRow α) (loc : String) (now : Nat)
    (hloc : r.location = loc) (hfresh : now < r.expires_at)
    (hts : ∀ b ∈ st, b.timestamp < r.timestamp) :
    get_cached_weather (st ++ [r]) loc now = some r.weather_data := by
  simp only [get_cached_weather, List.filter_append]
  have hrow : [r].filter (fun x => x.location == loc && decide (now < x.expires_at)) = [r] := by
    simp [hloc, hfresh]
  rw [hrow]
  have hfold := foldl_pick_latest_last (fun x : WeatherRow α => x.timestamp)
    (st.filter (fun x => x.location == loc && decide (now < x.expires_at))) r none
    (by intro b hb; cases hb)
    (fun b hb => hts b (List.mem_of_mem_filter hb))
  rw [hfold]
  rfl

end OfflineHandler

/-- C10: after any sequence of weather-cache writes for one location at
strictly increasing write times, a read at any time returns the payload of
the most recent write whose expiry is still in the future (and absent when
every write has expired) — even though the writes accumulate one row each,
the `ORDER BY timestamp DESC LIMIT 1` read observes the last non-expired
write. -/
theorem C10_read_returns_last_write {α : Type} (loc : String)
    (ws : List (α × Nat × Nat)) (now : Nat)
    (hmono : (ws.map (fun w => w.2.1)).Pairwise (· < ·)) :
    OfflineHandler.get_cached_weather (OfflineHandler.apply_weather_writes loc ws) loc now
      = ((ws.filter (fun w => decide (now < w.2.1 + 3600 * w.2.2))).getLast?).map
          (fun w => w.1) := by
  rw [OfflineHandler.apply_weather_writes_eq_map]
  revert hmono
  induction ws using List.reverseRecOn with
  | nil => intro _; rfl
  | append_singleton ws w ih =>
    intro hmono
    rw [List.map_append, List.pairwise_append] at hmono
    obtain ⟨h1, _, h3⟩ := hmono
    rw [List.map_append, List.filter_append]
    simp only [List.map_cons, List.map_nil]
    by_cases hfresh : now < w.2.1 + 3600 * w.2.2
    · have hts : ∀ b ∈ (ws.map (fun x =>
          (⟨loc, x.1, x.2.1, x.2.1 + 3600 * x.2.2⟩ : OfflineHandler.WeatherRow α))),
          b.timestamp < (⟨loc, w.1, w.2.1, w.2.1 + 3600 * w.2.2⟩ :
            OfflineHandler.WeatherRow α).timestamp := by
        intro b hb
        obtain ⟨w', hw', rfl⟩ := List.mem_map.mp hb
        exact h3 w'.2.1 (List.mem_map_of_mem _ hw') w.2.1 (List.mem_map_of_mem _ (by simp))
      rw [OfflineHandler.get_cached_weather_append_fresh
        (ws.map (fun x => (⟨loc, x.1, x.2.1, x.2.1 + 3600 * x.2.2⟩ :
          OfflineHandler.WeatherRow α)))
        (⟨loc, w.1, w.2.1, w.2.1 + 3600 * w.2.2⟩ : OfflineHandler.WeatherRow α)
        loc now rfl hfresh hts]
      have hw : [w].filter (fun x => decide (now < x.2.1 + 3600 * x.2.2)) = [w] := by
        simp [hfresh]
      rw [hw]
      simp [List.getLast?_append]
    · rw [OfflineHandler.get_cached_weather_append_stale
        (ws.map (fun x => (⟨loc, x.1, x.2.1, x.2.1 + 3600 * x.2.2⟩ :
          OfflineHandler.WeatherRow α)))
        (⟨loc, w.1, w.2.1, w.2.1 + 3600 * w.2.2⟩ : OfflineHandler.WeatherRow α)
        loc now (by simp [hfresh])]
      have hw : [w].filter (fun x => decide (now < x.2.1 + 3600 * x.2.2)) = [] := by
        simp [hfresh]
      rw [hw, List.append_nil]
      exact ih h1

/-- C10 witness: two "Delhi" writes at times 0 and 4000 with one-hour TTLs;
read at time 4100, when the first write has expired, returns the second
write's payload. -/
theorem C10_read_returns_last_write_witness :
    OfflineHandler.get_cached_weather
        (OfflineHandler.apply_weather_writes "Delhi"
          [("first", 0, 1), ("second", 4000, 1)]) "Delhi" 4100 = some "second" := by
  have h := C10_read_returns_last_write "Delhi"
    [("first", (0 : Nat), (1 : Nat)), ("second", 4000, 1)] 4100 (by decide)
  simpa using h

/-- C8: `get_unprocessed_queries` returns exactly the rows with
`processed = false`, projected to (id, query, language, intent, timestamp),
in ascending-timestamp order: for a table appended in nondecreasing
timestamp order the sort is the identity, so the result is the unprocessed
rows in insertion order; in particular, for Q1, Q2, Q3 stored in order with
only Q2 given a response, the result is [Q1, Q3]. -/
theorem C8_unprocessed_queries :
    (∀ st : List OfflineHandler.QueryRow,
      (st.map (fun r => r.timestamp)).Pairwise (· ≤ ·) →
      OfflineHandler.get_unprocessed_queries st
        = (st.filter (fun r => !r.processed)).map
            (fun r => ⟨r.id, r.query_text, r.language, r.intent, r.timestamp⟩))
  ∧ OfflineHandler.get_unprocessed_queries
      (OfflineHandler.update_query_response
        ((OfflineHandler.store_query
          ((OfflineHandler.store_query
            ((OfflineHandler.store_query [] "Q1" none "en" none 1).1)
            "Q2" none "en" none 2).1)
          "Q3" none "en" none 3).1)
        2 "answer")
      = [⟨1, "Q1", "en", none, 1⟩, ⟨3, "Q3", "en", none, 3⟩] := by
  constructor
  · intro st hts
    have hp : st.Pairwise (fun a b => a.timestamp ≤ b.timestamp) :=
      List.pairwise_map.mp hts
    have hsorted : (st.filter (fun r => !r.processed)).Pairwise
        (fun a b => a.timestamp ≤ b.timestamp) := hp.filter _
    unfold OfflineHandler.get_unprocessed_queries
    rw [List.Sorted.insertionSort_eq hsorted]
  · decide

/-- C8 witness: the general part applied to a concrete three-row table with
nondecreasing timestamps. -/
theorem C8_unprocessed_queries_witness :
    OfflineHandler.get_unprocessed_queries
        [⟨1, "Q1", none, "en", none, 1, false⟩,
         ⟨2, "Q2", some "a", "en", none, 2, true⟩,
         ⟨3, "Q3", none, "en", none, 3, false⟩]
      = [⟨1, "Q1", "en", none, 1⟩, ⟨3, "Q3", "en", none, 3⟩] := by
  have h := C8_unprocessed_queries.1
    [⟨1, "Q1", none, "en", none, 1, false⟩,
     ⟨2, "Q2", some "a", "en", none, 2, true⟩,
     ⟨3, "Q3", none, "en", none, 3, false⟩] (by decide)
  simpa using h

namespace RAGSystem

/-- Full characterisation of the `get_context` loop from any starting
context: some greedy prefix of the document lines is appended whole, the
budget is respected whenever the starting context already fits it, and if a
document was dropped then its line would not have fit. -/
theorem context_loop_spec (L : Nat) (docs : List String) (ctx : String) :
    ∃ m, m ≤ docs.length ∧
      context_loop L docs ctx = ctx ++ concat_lines ((docs.take m).map doc_line) ∧
      (ctx.length ≤ L → (context_loop L docs ctx).length ≤ L) ∧
      (∀ h : m < docs.length,
        L < (context_loop L docs ctx).length + (doc_line (docs.get ⟨m, h⟩)).length) := by
  induction docs generalizing ctx with
  | nil =>
    refine ⟨0, Nat.le_refl 0, ?_, ?_, ?_⟩
    · simp [context_loop, concat_lines]
    · intro h
      simpa [context_loop] using h
    · intro h
      exact absurd h (by simp)
  | cons c cs ih =>
    by_cases hfit : ctx.length + (doc_line c).length ≤ L
    · obtain ⟨m, hm, heq, hlen, hov⟩ := ih (ctx ++ doc_line c)
      refine ⟨m + 1, Nat.succ_le_succ hm, ?_, ?_, ?_⟩
      · show context_loop L (c :: cs) ctx = _
        simp only [context_loop, if_pos hfit]
        rw [heq]
        simp [concat_lines, List.take_succ_cons, String.append_assoc]
      · intro _
        simp only [context_loop, if_pos hfit]
        have : (ctx ++ doc_line c).length ≤ L := by
          simpa [String.length_append] using hfit
        simpa [context_loop] using hlen this
      · intro h
        have h' : m < cs.length := Nat.lt_of_succ_lt_succ h
        simp only [context_loop, if_pos hfit]
        simpa using hov h'
    · refine ⟨0, Nat.zero_le _, ?_, ?_, ?_⟩
      · simp [context_loop, if_neg hfit, concat_lines]
      · intro hctx
        simpa [context_loop, if_neg hfit] using hctx
      · intro h
        simp only [context_loop, if_neg hfit, List.get]
        exact Nat.lt_of_not_le hfit

end RAGSystem

/-- C6: the assembled context string is the header followed by the lines of
some greedy prefix of the retrieved documents in ranked order (so only whole
document lines appear); whenever the header fits the budget the total length
never exceeds the budget; and if some document line was dropped, the first
dropped line is exactly the one that would have overflowed, where assembly
stopped. -/
theorem C6_context_assembly (docs : List String) (L : Nat) :
    ∃ m, m ≤ docs.length ∧
      RAGSystem.get_context docs L
        = RAGSystem.context_header
            ++ RAGSystem.concat_lines ((docs.take m).map RAGSystem.doc_line) ∧
      (RAGSystem.context_header.length ≤ L → (RAGSystem.get_context docs L).length ≤ L) ∧
      (∀ h : m < docs.length,
        L < (RAGSystem.get_context docs L).length
              + (RAGSystem.doc_line (docs.get ⟨m, h⟩)).length) :=
  RAGSystem.context_loop_spec L docs RAGSystem.context_header

/-- C6 witness: for a concrete 2000-character budget and three 900-character
documents (whose lines total well over the budget), the assembled context
stays within 2000 characters. -/
theorem C6_context_assembly_witness :
    (RAGSystem.get_context (List.replicate 3 (String.mk (List.replicate 900 'x'))) 2000).length
      ≤ 2000 := by
  obtain ⟨m, _, _, hlen, _⟩ :=
    C6_context_assembly (List.replicate 3 (String.mk (List.replicate 900 'x'))) 2000
  exact hlen (by decide)

namespace NLPProcessor

/-- The best-candidate fold of the fallback classifier returns an element of
the candidate list. -/
theorem foldl_best_mem (x : String × ℚ) (xs : List (String × ℚ)) :
    xs.foldl (fun best y => if best.2 < y.2 then y else best) x ∈ x :: xs := by
  induction xs generalizing x with
  | nil => simp
  | cons a t ih =>
    simp only [List.foldl_cons]
    by_cases hc : x.2 < a.2
    · rw [if_pos hc]
      rcases List.mem_cons.mp (ih a) with h | h
      · rw [h]
        exact List.mem_cons_of_mem x (List.mem_cons_self a t)
      · exact List.mem_cons_of_mem x (List.mem_cons_of_mem a h)
    · rw [if_neg hc]
      rcases List.mem_cons.mp (ih x) with h | h
      · rw [h]
        exact List.mem_cons_self x (a :: t)
      · exact List.mem_cons_of_mem x (List.mem_cons_of_mem a h)

/-- The best-candidate fold returns a score at least as large as every
candidate's. -/
theorem foldl_best_ge (x : String × ℚ) (xs : List (String × ℚ)) :
    ∀ y ∈ x :: xs,
      y.2 ≤ (xs.foldl (fun best y => if best.2 < y.2 then y else best) x).2 := by
  induction xs generalizing x with
  | nil =>
    intro y hy
    rcases List.mem_cons.mp hy with rfl | h
    · exact le_refl _
    · exact absurd h (List.not_mem_nil y)
  | cons a t ih =>
    intro y hy
    simp only [List.foldl_cons]
    have hxstep : x.2 ≤ (if x.2 < a.2 then a else x).2 := by
      by_cases hc : x.2 < a.2
      · rw [if_pos hc]; exact le_of_lt hc
      · rw [if_neg hc]
    have hastep : a.2 ≤ (if x.2 < a.2 then a else x).2 := by
      by_cases hc : x.2 < a.2
      · rw [if_pos hc]
      · rw [if_neg hc]; exact not_lt.mp hc
    have hfold := ih (if x.2 < a.2 then a else x)
    rcases List.mem_cons.mp hy with rfl | hy'
    · exact hxstep.trans (hfold _ (List.mem_cons_self _ t))
    · rcases List.mem_cons.mp hy' with rfl | hy''
      · exact hastep.trans (hfold _ (List.mem_cons_self _ t))
      · exact hfold y (List.mem_cons_of_mem _ hy'')

end NLPProcessor

/-- C7: the fallback classifier scores each intent as the count of its
trigger terms found as case-insensitive substrings divided by the size of
its trigger set; when every intent scores zero it returns `general` with
confidence 1/2 (and only then — otherwise the returned intent is a real
pattern intent, never `general`); otherwise it returns an intent attaining
the maximum score, with the returned confidence equal to that intent's score
and positive; and the concrete input "I need water for my crop" classifies
as `irrigation` with confidence 1/10 > 0. -/
theorem C7_fallback_classifier :
    (∀ text : String,
      (∀ ip ∈ NLPProcessor.intent_patterns,
          NLPProcessor.pattern_count (py_lower text) ip.2 = 0) →
        NLPProcessor.fallback_intent_classification text = ("general", 1 / 2))
  ∧ (∀ text : String,
      (∃ ip ∈ NLPProcessor.intent_patterns,
          0 < NLPProcessor.pattern_count (py_lower text) ip.2) →
      ∃ ip ∈ NLPProcessor.intent_patterns,
        (NLPProcessor.fallback_intent_classification text).1 = ip.1 ∧
        (NLPProcessor.fallback_intent_classification text).2
          = NLPProcessor.pattern_score (py_lower text) ip.2 ∧
        0 < (NLPProcessor.fallback_intent_classification text).2 ∧
        (NLPProcessor.fallback_intent_classification text).1 ≠ "general" ∧
        ∀ jp ∈ NLPProcessor.intent_patterns,
          NLPProcessor.pattern_score (py_lower text) jp.2
            ≤ (NLPProcessor.fallback_intent_classification text).2)
  ∧ NLPProcessor.fallback_intent_classification "I need water for my crop"
      = ("irrigation", 1 / 10) := by
  have hlen : ∀ ip ∈ NLPProcessor.intent_patterns, 0 < ip.2.length := by decide
  have hnames : ∀ ip ∈ NLPProcessor.intent_patterns, ip.1 ≠ "general" := by decide
  refine ⟨?_, ?_, ?_⟩
  · intro text hzero
    have hnil : NLPProcessor.intent_patterns.filterMap (fun ip =>
        if 0 < NLPProcessor.pattern_count (py_lower text) ip.2 then
          some (ip.1, NLPProcessor.pattern_score (py_lower text) ip.2)
        else none) = [] := by
      refine List.filterMap_eq_nil_iff.mpr (fun ip hip => ?_)
      rw [if_neg]
      rw [hzero ip hip]
      exact lt_irrefl 0
    unfold NLPProcessor.fallback_intent_classification
    rw [hnil]
  · intro text hex
    obtain ⟨ip0, hip0, hpos0⟩ := hex
    cases hS : NLPProcessor.intent_patterns.filterMap (fun ip =>
        if 0 < NLPProcessor.pattern_count (py_lower text) ip.2 then
          some (ip.1, NLPProcessor.pattern_score (py_lower text) ip.2)
        else none) with
    | nil =>
      exfalso
      have := List.filterMap_eq_nil_iff.mp hS ip0 hip0
      rw [if_pos hpos0] at this
      exact Option.some_ne_none _ this
    | cons x xs =>
      have hres : NLPProcessor.fallback_intent_classification text
          = xs.foldl (fun best y => if best.2 < y.2 then y else best) x := by
        unfold NLPProcessor.fallback_intent_classification
        rw [hS]
      have hmem := NLPProcessor.foldl_best_mem x xs
      rw [← hS] at hmem
      obtain ⟨ip, hip, hsome⟩ := List.mem_filterMap.mp hmem
      by_cases hc : 0 < NLPProcessor.pattern_count (py_lower text) ip.2
      · rw [if_pos hc] at hsome
        have hres2 : xs.foldl (fun best y => if best.2 < y.2 then y else best) x
            = (ip.1, NLPProcessor.pattern_score (py_lower text) ip.2) :=
          (Option.some_inj.mp hsome).symm
        have hscore_pos : 0 < NLPProcessor.pattern_score (py_lower text) ip.2 := by
          unfold NLPProcessor.pattern_score
          have h1 : (0 : ℚ) < (NLPProcessor.pattern_count (py_lower text) ip.2 : ℚ) := by
            exact_mod_cast hc
          have h2 : (0 : ℚ) < (ip.2.length : ℚ) := by
            exact_mod_cast hlen ip hip
          exact div_pos h1 h2
        refine ⟨ip, hip, ?_, ?_, ?_, ?_, ?_⟩
        · rw [hres, hres2]
        · rw [hres, hres2]
        · rw [hres, hres2]; exact hscore_pos
        · rw [hres, hres2]; exact hnames ip hip
        · intro jp hjp
          rw [hres]
          by_cases hcj : 0 < NLPProcessor.pattern_count (py_lower text) jp.2
          · have hjmem : (jp.1, NLPProcessor.pattern_score (py_lower text) jp.2)
                ∈ x :: xs := by
              rw [← hS]
              exact List.mem_filterMap.mpr ⟨jp, hjp, by rw [if_pos hcj]⟩
            have := NLPProcessor.foldl_best_ge x xs _ hjmem
            exact this
          · have hz : NLPProcessor.pattern_count (py_lower text) jp.2 = 0 :=
              Nat.eq_zero_of_not_pos hcj
            have : NLPProcessor.pattern_score (py_lower text) jp.2 = 0 := by
              unfold NLPProcessor.pattern_score
              rw [hz]
              simp
            rw [this, hres2]
            exact le_of_lt hscore_pos
      · rw [if_neg hc] at hsome
        exact absurd hsome (Option.noConfusion)
  · have e1 : NLPProcessor.pattern_count (py_lower "I need water for my crop")
        ["crop", "seed", "plant", "grow", "cultivation", "farming", "harvest",
         "फसल", "बीज", "खेती", "उगाना", "बोना"] = 1 := by decide
    have e2 : NLPProcessor.pattern_count (py_lower "I need water for my crop")
        ["water", "irrigation", "watering", "rain", "drought", "moisture",
         "पानी", "सिंचाई", "बारिश", "सूखा"] = 1 := by decide
    have e3 : NLPProcessor.pattern_count (py_lower "I need water for my crop")
        ["scheme", "subsidy", "government", "loan", "insurance", "support",
         "योजना", "सब्सिडी", "सरकार", "लोन", "बीमा", "सहायता"] = 0 := by decide
    have e4 : NLPProcessor.pattern_count (py_lower "I need water for my crop")
        ["fertilizer", "manure", "nutrition", "nutrient", "soil health",
         "खाद", "उर्वरक", "पोषण"] = 0 := by decide
    unfold NLPProcessor.fallback_intent_classification NLPProcessor.intent_patterns
    simp only [List.filterMap_cons, List.filterMap_nil, e1, e2, e3, e4,
      NLPProcessor.pattern_score]
    norm_num [e1, e2]

/-- C7 witness: the all-zero case at the concrete input "xyz" yields
`general` with confidence 1/2, and the matched case at "I need water for my
crop" yields an intent other than `general`. -/
theorem C7_fallback_classifier_witness :
    NLPProcessor.fallback_intent_classification "xyz" = ("general", 1 / 2)
  ∧ (NLPProcessor.fallback_intent_classification "I need water for my crop").1
      ≠ "general" :=
  ⟨C7_fallback_classifier.1 "xyz" (by decide),
   by
    obtain ⟨ip, hip, h1, h2, h3, h4, h5⟩ :=
      C7_fallback_classifier.2.1 "I need water for my crop"
        ⟨("irrigation",
          ["water", "irrigation", "watering", "rain", "drought", "moisture",
           "पानी", "सिंचाई", "बारिश", "सूखा"]), by decide, by decide⟩
    exact h4⟩

/-- C1: the claim asserts that on an unusable provider call `fetch` first
returns the weather cache's non-expired value, and the static default only
when no cached value exists.  Refutation at a concrete input: with the
provider call failed, an empty backup file, and the cache holding a
10-minute-old (non-expired) "Delhi" entry, `get_weather_data` returns the
static default snapshot, not the cached payload — the fetch path never
consults the SQLite weather cache. -/
theorem C1_counterexample :
    OfflineHandler.get_cached_weather
        [(⟨"Delhi",
            ({ default_weather with
               weather_description := "light rain"
               source := "api" } : Weather), 600, 4200⟩ :
          OfflineHandler.WeatherRow Weather)] "Delhi" 1200
      = some { default_weather with
               weather_description := "light rain"
               source := "api" }
  ∧ DataFetcher.get_weather_data true ApiOutcome.failed [] "Delhi" = default_weather
  ∧ default_weather
      ≠ { default_weather with weather_description := "light rain", source := "api" } := by
  refine ⟨rfl, rfl, ?_⟩
  intro h
  exact absurd (congrArg Weather.weather_description h) (by decide)

/-- C1 (amended): when the provider call is unusable (no API key, timeout,
raised exception, non-200 status, or malformed body), `get_weather_data`
returns the static backup file's snapshot for the lowercased city when the
file has one (tagged `source = "backup"`), and the static default snapshot
otherwise; the SQLite weather cache is never consulted by the fetch, so its
contents cannot influence the result. -/
theorem C1_amended_fallback :
    ∀ (key_present : Bool) (api : ApiOutcome) (backup : List (String × Weather))
      (city : String),
      key_present = false ∨ api = ApiOutcome.failed →
      (∀ b, backup.lookup (py_lower city) = some b →
        DataFetcher.get_weather_data key_present api backup city
          = { b with source := "backup" })
      ∧ (backup.lookup (py_lower city) = none →
        DataFetcher.get_weather_data key_present api backup city = default_weather) := by
  intro key_present api backup city hfail
  have hfall : DataFetcher.get_weather_data key_present api backup city
      = match backup.lookup (py_lower city) with
        | some b => { b with source := "backup" }
        | none => default_weather := by
    rcases hfail with h | h
    · subst h; rfl
    · subst h
      cases key_present <;> rfl
  constructor
  · intro b hb
    rw [hfall, hb]
  · intro hb
    rw [hfall, hb]

/-- C1 witness: the amended fallback applied concretely — a failed call with
"delhi" present in the backup file returns the backup snapshot, and with an
empty backup file returns the static default. -/
theorem C1_amended_fallback_witness :
    DataFetcher.get_weather_data true ApiOutcome.failed
        [("delhi", { default_weather with temperature := 30 })] "Delhi"
      = { default_weather with temperature := 30, source := "backup" }
  ∧ DataFetcher.get_weather_data false ApiOutcome.failed [] "Mumbai" = default_weather :=
  ⟨(C1_amended_fallback true ApiOutcome.failed
      [("delhi", { default_weather with temperature := 30 })] "Delhi"
      (Or.inr rfl)).1 { default_weather with temperature := 30 } rfl,
   (C1_amended_fallback false ApiOutcome.failed [] "Mumbai" (Or.inl rfl)).2 rfl⟩

/-- C9: the modelled `generate_response` is total over every behaviour of
its component oracles: a body that escapes with an exception is recovered
into the fixed apology result with confidence 0, a body that completes is
returned unchanged, and in the worst case of no configured AI service the
call returns the fixed explanatory offline result with confidence 0 and no
sources. -/
theorem C9_generate_response_total :
    ∀ (env : AgriAssistApp.GenEnv) (query : String),
      (∀ e, AgriAssistApp.generate_response_body env query = Except.error e →
        AgriAssistApp.generate_response env query = AgriAssistApp.error_fallback)
    ∧ (∀ r, AgriAssistApp.generate_response_body env query = Except.ok r →
        AgriAssistApp.generate_response env query = r)
    ∧ (env.ai_enabled = false →
        AgriAssistApp.generate_response env query = AgriAssistApp.ai_offline_result)
    ∧ AgriAssistApp.error_fallback.confidence = 0
    ∧ AgriAssistApp.error_fallback.sources = []
    ∧ AgriAssistApp.ai_offline_result.confidence = 0
    ∧ AgriAssistApp.ai_offline_result.sources = [] := by
  intro env query
  refine ⟨?_, ?_, ?_, rfl, rfl, rfl, rfl⟩
  · intro e he
    unfold AgriAssistApp.generate_response
    rw [he]
  · intro r hr
    unfold AgriAssistApp.generate_response
    rw [hr]
  · intro hai
    have hbody : AgriAssistApp.generate_response_body env query
        = Except.ok AgriAssistApp.ai_offline_result := by
      unfold AgriAssistApp.generate_response_body
      rw [hai]
      rfl
    unfold AgriAssistApp.generate_response
    rw [hbody]

/-- C9 witness: a concrete environment with no AI service configured (and a
classifier oracle that would fail if consulted) still returns the structured
offline result. -/
theorem C9_generate_response_total_witness :
    AgriAssistApp.generate_response
        { ai_enabled := false, rag_present := false, language := "en",
          location := "Delhi",
          store_query := fun _ _ => 1,
          process_query := fun _ => Except.error "no model configured",
          get_context := fun _ => Except.error "no index",
          search_top3 := fun _ => Except.error "no index",
          get_weather := fun _ => Except.error "no provider",
          irrigation_rec := fun _ => Except.error "no provider",
          translate_from_english := fun s _ => Except.ok s } "help my crop"
      = AgriAssistApp.ai_offline_result :=
  (C9_generate_response_total
    { ai_enabled := false, rag_present := false, language := "en",
      location := "Delhi",
      store_query := fun _ _ => 1,
      process_query := fun _ => Except.error "no model configured",
      get_context := fun _ => Except.error "no index",
      search_top3 := fun _ => Except.error "no index",
      get_weather := fun _ => Except.error "no provider",
      irrigation_rec := fun _ => Except.error "no provider",
      translate_from_english := fun s _ => Except.ok s } "help my crop").2.2.1 rfl

/-- Sum of a list of nonnegative rationals is zero exactly when every entry
is zero. -/
theorem sum_eq_zero_iff_of_nonneg (l : List ℚ) (h : ∀ x ∈ l, 0 ≤ x) :
    l.sum = 0 ↔ ∀ x ∈ l, x = 0 := by
  constructor
  · intro hs
    induction l with
    | nil => simp
    | cons a t ih =>
      simp only [List.sum_cons] at hs
      have ha : 0 ≤ a := h a (List.mem_cons_self a t)
      have ht : 0 ≤ t.sum :=
        List.sum_nonneg (fun x hx => h x (List.mem_cons_of_mem a hx))
      have ha0 : a = 0 := by linarith
      have hts : t.sum = 0 := by linarith
      intro x hx
      rcases List.mem_cons.mp hx with rfl | hx'
      · exact ha0
      · exact ih (fun y hy => h y (List.mem_cons_of_mem a hy)) hts x hx'
  · exact List.sum_eq_zero

/-- Every entry of a raw embedding vector is nonnegative. -/
theorem get_embedding_nonneg (dim : Nat) (text : String) :
    ∀ x ∈ RAGSystem.get_embedding dim text, 0 ≤ x := by
  intro x hx
  unfold RAGSystem.get_embedding at hx
  obtain ⟨i, _, hix⟩ := List.mem_map.mp hx
  rw [← hix]
  cases hw : ((py_split_whitespace (py_lower text)).take 100).get? i with
  | none => simp
  | some w =>
    simp only [hw]
    positivity

/-- C4: the claim asserts the random-vector substitution happens iff an
individual raw vector is all-zero, and that an all-zero vector is never
normalized or indexed.  Refutation at a concrete input: for the two-document
corpus with contents "" and "hi", the first raw embedding is all-zero but
the second is not, so `build_vector_store`'s whole-corpus test does not
fire, no substitution happens, and the all-zero vector is passed on to
normalization and indexing. -/
theorem C4_counterexample :
    RAGSystem.chosen_embeddings
        [⟨"", "soil", "a"⟩, ⟨"hi", "soil", "b"⟩] 2 (fun _ => [9, 9])
      = RAGSystem.raw_embeddings [⟨"", "soil", "a"⟩, ⟨"hi", "soil", "b"⟩] 2
  ∧ (RAGSystem.raw_embeddings [⟨"", "soil", "a"⟩, ⟨"hi", "soil", "b"⟩] 2).head?
      = some [0, 0]
  ∧ (∀ x ∈ ([0, 0] : List ℚ), x = 0) := by
  have hraw : RAGSystem.raw_embeddings [⟨"", "soil", "a"⟩, ⟨"hi", "soil", "b"⟩] 2
      = [[0, 0], [(("hi".length : ℚ)) * (1 / 10), 0]] := rfl
  have hlen2 : ("hi".length : ℚ) = 2 := by norm_num [String.length]
  have hsum2 : ([(("hi".length : ℚ)) * (1 / 10), 0] : List ℚ).sum ≠ 0 := by
    simp only [List.sum_cons, List.sum_nil, hlen2]
    norm_num
  have hp2 : (([(("hi".length : ℚ)) * (1 / 10), 0] : List ℚ).sum == 0) = false :=
    beq_eq_false_iff_ne.mpr hsum2
  refine ⟨?_, ?_, ?_⟩
  · unfold RAGSystem.chosen_embeddings
    rw [hraw]
    simp only [List.isEmpty_cons, List.all_cons, List.all_nil, hp2,
      Bool.and_false, Bool.false_and, Bool.and_true, Bool.false_or,
      Bool.or_false, if_false]
    exact hraw.symm
  · rw [hraw]
    rfl
  · intro x hx
    rcases List.mem_cons.mp hx with rfl | hx'
    · rfl
    · rcases List.mem_cons.mp hx' with rfl | hx''
      · rfl
      · exact absurd hx'' (List.not_mem_nil x)

/-- C4 (amended): the random substitution in `build_vector_store` is a
whole-corpus policy: for a nonempty corpus all raw vectors are replaced by
random ones exactly when every raw vector has zero sum, and otherwise the
raw vectors — including any individual all-zero ones — are normalized and
indexed unchanged; a raw vector has zero sum exactly when it is all-zero
(entries are nonnegative); and an all-zero query embedding is not
substituted either: `search` then returns the first `top_k` documents
without scores or ranks. -/
theorem C4_amended_substitution :
    (∀ (docs : List Document) (dim : Nat) (rand : Nat → List ℚ),
      docs ≠ [] →
      ((∀ e ∈ RAGSystem.raw_embeddings docs dim, e.sum = 0) →
        RAGSystem.chosen_embeddings docs dim rand
          = (List.range docs.length).map rand)
      ∧ ((∃ e ∈ RAGSystem.raw_embeddings docs dim, e.sum ≠ 0) →
        RAGSystem.chosen_embeddings docs dim rand
          = RAGSystem.raw_embeddings docs dim))
  ∧ (∀ (dim : Nat) (text : String),
      (RAGSystem.get_embedding dim text).sum = 0
        ↔ ∀ x ∈ RAGSystem.get_embedding dim text, x = 0)
  ∧ (∀ (docs : List Document) (stored : List (List ℚ)) (dim : Nat)
       (normFn : List ℚ → List ℚ) (query : String) (k : Nat),
      docs ≠ [] →
      (RAGSystem.get_embedding dim query).sum = 0 →
      RAGSystem.search docs (some stored) dim normFn query k
        = (docs.take k).map (fun d => ⟨d, none, none⟩)) := by
  refine ⟨?_, ?_, ?_⟩
  · intro docs dim rand _
    constructor
    · intro hall
      have hcond : (RAGSystem.raw_embeddings docs dim).all
          (fun e => e.sum == 0) = true := by
        rw [List.all_eq_true]
        intro e he
        exact beq_iff_eq.mpr (hall e he)
      unfold RAGSystem.chosen_embeddings
      simp only [hcond, Bool.or_true, if_true]
    · intro ⟨e, he, hne⟩
      have hcond : (RAGSystem.raw_embeddings docs dim).all
          (fun e => e.sum == 0) = false := by
        by_contra hc
        rw [Bool.not_eq_false, List.all_eq_true] at hc
        exact hne (beq_iff_eq.mp (hc e he))
      have hne2 : (RAGSystem.raw_embeddings docs dim).isEmpty = false := by
        rw [List.isEmpty_eq_false_iff_exists_mem]
        exact ⟨e, he⟩
      unfold RAGSystem.chosen_embeddings
      simp only [hcond, hne2, Bool.or_self, if_false, Bool.false_or,
        Bool.false_eq_true]
  · intro dim text
    exact sum_eq_zero_iff_of_nonneg _ (get_embedding_nonneg dim text)
  · intro docs stored dim normFn query k hdocs hzero
    unfold RAGSystem.search
    have hde : docs.isEmpty = false := by
      rw [List.isEmpty_eq_false_iff_exists_mem]
      cases docs with
      | nil => exact absurd rfl hdocs
      | cons d t => exact ⟨d, List.mem_cons_self d t⟩
    have hbeq : ((RAGSystem.get_embedding dim query).sum == 0) = true :=
      beq_iff_eq.mpr hzero
    rw [hde]
    simp only [hbeq, if_true, if_false, Bool.false_eq_true]

/-- C4 witness: the amended theorem applied concretely — an all-zero corpus
of one empty document gets the random vector, and a degenerate query against
a one-document index returns the document unscored. -/
theorem C4_amended_substitution_witness :
    RAGSystem.chosen_embeddings [⟨"", "soil", "a"⟩] 1 (fun _ => [7]) = [[7]]
  ∧ RAGSystem.search [⟨"soil info", "soil", "a"⟩] (some [[1]]) 2 (fun v => v) "" 3
      = [⟨⟨"soil info", "soil", "a"⟩, none, none⟩] := by
  constructor
  · have h := (C4_amended_substitution.1 [⟨"", "soil", "a"⟩] 1 (fun _ => [7])
      (by simp)).1 ?hall
    · rw [h]
      rfl
    · intro e he
      have : RAGSystem.raw_embeddings [⟨"", "soil", "a"⟩] 1 = [[0]] := rfl
      rw [this] at he
      rcases List.mem_cons.mp he with rfl | he'
      · simp
      · exact absurd he' (List.not_mem_nil e)
  · have h := C4_amended_substitution.2.2 [⟨"soil info", "soil", "a"⟩] [[1]] 2
      (fun v => v) "" 3 (by simp) ?hz
    · rw [h]
      rfl
    · have : RAGSystem.get_embedding 2 "" = [0, 0] := rfl
      rw [this]
      simp

/-- A `filterMap` whose function never drops an element is a `map`. -/
theorem filterMap_eq_map_of_forall_some {α β : Type} (f : α → Option β)
    (g : α → β) (l : List α) (h : ∀ x ∈ l, f x = some (g x)) :
    l.filterMap f = l.map g := by
  induction l with
  | nil => rfl
  | cons a t ih =>
    simp only [List.filterMap_cons, List.map_cons, h a (List.mem_cons_self a t)]
    rw [ih (fun x hx => h x (List.mem_cons_of_mem a hx))]

namespace RAGSystem

/-- The FAISS search model returns `min k N` hits. -/
theorem faissTopK_length (scores : List ℚ) (k : Nat) :
    (faissTopK scores k).length = min k scores.length := by
  unfold faissTopK
  rw [List.length_take, (List.perm_insertionSort faissRel scores.enum).length_eq,
    List.enum_length]

/-- Every hit id of the FAISS search model is a valid stored-vector id. -/
theorem faissTopK_mem_lt (scores : List ℚ) (k : Nat) :
    ∀ p ∈ faissTopK scores k, p.1 < scores.length := by
  intro p hp
  have h1 : p ∈ scores.enum.insertionSort faissRel := List.mem_of_mem_take hp
  have h2 : p ∈ scores.enum :=
    ((List.perm_insertionSort faissRel scores.enum).mem_iff).mp h1
  exact List.fst_lt_of_mem_enum h2

/-- The FAISS search model returns hits in strictly descending order: later
hits have smaller scores, or equal scores and strictly larger ids. -/
theorem faissTopK_pairwise (scores : List ℚ) (k : Nat) :
    (faissTopK scores k).Pairwise
      (fun a b => b.2 < a.2 ∨ (a.2 = b.2 ∧ a.1 < b.1)) := by
  have hsorted : (scores.enum.insertionSort faissRel).Pairwise faissRel :=
    List.sorted_insertionSort faissRel scores.enum
  have hnodup : ((scores.enum.insertionSort faissRel).map Prod.fst).Nodup := by
    have hperm := (List.perm_insertionSort faissRel scores.enum).map Prod.fst
    refine hperm.nodup_iff.mpr ?_
    rw [List.enum_map_fst]
    exact List.nodup_range _
  have hsorted_t : (faissTopK scores k).Pairwise faissRel :=
    hsorted.sublist (List.take_sublist k _)
  have hnodup_t : ((faissTopK scores k).map Prod.fst).Nodup := by
    unfold faissTopK
    rw [List.map_take]
    exact hnodup.sublist (List.take_sublist _ _)
  have hneq : (faissTopK scores k).Pairwise (fun a b => a.1 ≠ b.1) := by
    have h : ((faissTopK scores k).map Prod.fst).Pairwise (fun a b => a ≠ b) :=
      hnodup_t
    rw [List.pairwise_map] at h
    exact h
  refine (hsorted_t.and hneq).imp ?_
  rintro a b ⟨hr, hne⟩
  rcases hr with h | ⟨hs, hle⟩
  · exact Or.inl h
  · exact Or.inr ⟨hs, lt_of_le_of_ne hle hne⟩

/-- The chosen embedding list has one vector per document. -/
theorem chosen_embeddings_length (docs : List Document) (dim : Nat)
    (rand : Nat → List ℚ) :
    (chosen_embeddings docs dim rand).length = docs.length := by
  simp only [chosen_embeddings]
  split
  · rw [List.length_map, List.length_range]
  · unfold raw_embeddings
    rw [List.length_map]

/-- For a nonempty corpus the index is built from the chosen embeddings. -/
theorem build_vector_store_eq_some (docs : List Document) (dim : Nat)
    (rand : Nat → List ℚ) (normFn : List ℚ → List ℚ)
    (hde : docs.isEmpty = false) :
    build_vector_store docs dim rand normFn
      = some ((chosen_embeddings docs dim rand).map normFn) := by
  unfold build_vector_store
  rw [hde]
  rfl

/-- The degenerate-query branch of `search`: an all-zero query embedding is
answered with the first `top_k` documents, unscored and unranked. -/
theorem search_degenerate (docs : List Document) (stored : List (List ℚ))
    (dim : Nat) (normFn : List ℚ → List ℚ) (query : String) (k : Nat)
    (hde : docs.isEmpty = false)
    (hzero : (get_embedding dim query).sum = 0) :
    search docs (some stored) dim normFn query k
      = (docs.take k).map (fun d => ⟨d, none, none⟩) := by
  unfold search
  rw [hde]
  simp only [beq_iff_eq.mpr hzero, if_true, if_false, Bool.false_eq_true]

/-- The scoring branch of `search`: for a non-degenerate query, the result
is the enumerated FAISS hit list, each hit carrying the hit's document, its
score, and rank `i + 1`. -/
theorem search_nondegenerate (docs : List Document) (stored : List (List ℚ))
    (dim : Nat) (normFn : List ℚ → List ℚ) (query : String) (k : Nat)
    (hlen : stored.length = docs.length)
    (hde : docs.isEmpty = false)
    (hq : (get_embedding dim query).sum ≠ 0) :
    search docs (some stored) dim normFn query k
      = (faissTopK (stored.map (fun v => dot (normFn (get_embedding dim query)) v))
          (min k docs.length)).enum.map
          (fun p => ⟨(docs.get? p.2.1).getD default, some p.2.2, some (p.1 + 1)⟩) := by
  unfold search
  rw [hde]
  have hbeq : ((get_embedding dim query).sum == 0) = false :=
    beq_eq_false_iff_ne.mpr hq
  simp only [hbeq, if_false, Bool.false_eq_true]
  refine filterMap_eq_map_of_forall_some _ _ _ ?_
  intro p hp
  have hsnd : p.2 ∈ faissTopK
      (stored.map (fun v => dot (normFn (get_embedding dim query)) v))
      (min k docs.length) := by
    have h := List.mem_map_of_mem Prod.snd hp
    rwa [List.enum_map_snd] at h
  have hidx : p.2.1 < docs.length := by
    have h := faissTopK_mem_lt _ _ _ hsnd
    rwa [List.length_map, hlen] at h
  rw [List.get?_eq_get hidx]
  rfl

end RAGSystem

/-- C3: the claim asserts that for every corpus built into the index,
`search(q, k)` returns `min(k, N)` results each carrying `rank i+1` and a
score.  Refutation at a concrete input: for a one-document corpus with its
built index, the whitespace-only query "" takes the degenerate-query branch
and `search` returns the document bare — its single result carries no rank
(and no score), where the claim requires rank 1. -/
theorem C3_counterexample :
    RAGSystem.search [⟨"soil information", "soil", "alluvial"⟩]
        (RAGSystem.build_vector_store [⟨"soil information", "soil", "alluvial"⟩] 4
          (fun _ => []) (fun v => v)) 4 (fun v => v) "" 3
      = [⟨⟨"soil information", "soil", "alluvial"⟩, none, none⟩]
  ∧ (RAGSystem.search [⟨"soil information", "soil", "alluvial"⟩]
        (RAGSystem.build_vector_store [⟨"soil information", "soil", "alluvial"⟩] 4
          (fun _ => []) (fun v => v)) 4 (fun v => v) "" 3).map (fun h => h.rank)
      = [none] := by
  have hzero : (RAGSystem.get_embedding 4 "").sum = 0 := by
    have h : RAGSystem.get_embedding 4 "" = [0, 0, 0, 0] := rfl
    rw [h]
    simp
  have h1 : RAGSystem.search [⟨"soil information", "soil", "alluvial"⟩]
      (RAGSystem.build_vector_store [⟨"soil information", "soil", "alluvial"⟩] 4
        (fun _ => []) (fun v => v)) 4 (fun v => v) "" 3
      = [⟨⟨"soil information", "soil", "alluvial"⟩, none, none⟩] := by
    rw [RAGSystem.build_vector_store_eq_some
        [⟨"soil information", "soil", "alluvial"⟩] 4 (fun _ => []) (fun v => v) rfl,
      RAGSystem.search_degenerate
        [⟨"soil information", "soil", "alluvial"⟩] _ 4 (fun v => v) "" 3 rfl hzero]
    rfl
  exact ⟨h1, by rw [h1]; rfl⟩

/-- C3 (amended): `search` returns the empty sequence when the index is
unbuilt (`none`), when the corpus is empty (in which case the build also
leaves the index unbuilt); the FAISS hit list has length `min k N` and is
ordered by non-increasing score with ties broken by strictly ascending
insertion id; for a query whose raw embedding is all-zero, `search` instead
returns the first `min(k, N)` documents bare (no scores, no ranks); and for
a query with a non-zero embedding the result has length `min(k, N)`, carries
rank `i + 1` at every position `i`, and lists exactly the hit scores and hit
documents of the FAISS search in hit order. -/
theorem C3_amended_search :
    (∀ (docs : List Document) (dim : Nat) (normFn : List ℚ → List ℚ)
       (query : String) (k : Nat),
      RAGSystem.search docs none dim normFn query k = [])
  ∧ (∀ (dim : Nat) (rand : Nat → List ℚ) (normFn : List ℚ → List ℚ),
      RAGSystem.build_vector_store [] dim rand normFn = none)
  ∧ (∀ (index : Option (List (List ℚ))) (dim : Nat) (normFn : List ℚ → List ℚ)
       (query : String) (k : Nat),
      RAGSystem.search [] index dim normFn query k = [])
  ∧ (∀ (scores : List ℚ) (k : Nat),
      (RAGSystem.faissTopK scores k).length = min k scores.length
      ∧ (RAGSystem.faissTopK scores k).Pairwise
          (fun a b => b.2 < a.2 ∨ (a.2 = b.2 ∧ a.1 < b.1)))
  ∧ (∀ (docs : List Document) (dim : Nat) (rand : Nat → List ℚ)
       (normFn : List ℚ → List ℚ) (query : String) (k : Nat),
      docs ≠ [] →
      (RAGSystem.get_embedding dim query).sum = 0 →
      RAGSystem.search docs (RAGSystem.build_vector_store docs dim rand normFn)
          dim normFn query k
        = (docs.take k).map (fun d => ⟨d, none, none⟩))
  ∧ (∀ (docs : List Document) (dim : Nat) (rand : Nat → List ℚ)
       (normFn : List ℚ → List ℚ) (query : String) (k : Nat),
      docs ≠ [] →
      (RAGSystem.get_embedding dim query).sum ≠ 0 →
      (RAGSystem.search docs (RAGSystem.build_vector_store docs dim rand normFn)
          dim normFn query k).length = min k docs.length
      ∧ (RAGSystem.search docs (RAGSystem.build_vector_store docs dim rand normFn)
          dim normFn query k).map (fun h => h.rank)
        = (List.range (min k docs.length)).map (fun i => some (i + 1))
      ∧ (RAGSystem.search docs (RAGSystem.build_vector_store docs dim rand normFn)
          dim normFn query k).map (fun h => h.score)
        = (RAGSystem.faissTopK
            (((RAGSystem.chosen_embeddings docs dim rand).map normFn).map
              (fun v => RAGSystem.dot (normFn (RAGSystem.get_embedding dim query)) v))
            (min k docs.length)).map (fun p => some p.2)
      ∧ (RAGSystem.search docs (RAGSystem.build_vector_store docs dim rand normFn)
          dim normFn query k).map (fun h => h.doc)
        = (RAGSystem.faissTopK
            (((RAGSystem.chosen_embeddings docs dim rand).map normFn).map
              (fun v => RAGSystem.dot (normFn (RAGSystem.get_embedding dim query)) v))
            (min k docs.length)).map (fun p => (docs.get? p.1).getD default)) := by
  refine ⟨?_, ?_, ?_, ?_, ?_, ?_⟩
  · intro docs dim normFn query k
    rfl
  · intro dim rand normFn
    rfl
  · intro index dim normFn query k
    cases index with
    | none => rfl
    | some stored => rfl
  · intro scores k
    exact ⟨RAGSystem.faissTopK_length scores k, RAGSystem.faissTopK_pairwise scores k⟩
  · intro docs dim rand normFn query k hdocs hzero
    have hde : docs.isEmpty = false := by
      cases docs with
      | nil => exact absurd rfl hdocs
      | cons d t => rfl
    rw [RAGSystem.build_vector_store_eq_some _ _ _ _ hde]
    exact RAGSystem.search_degenerate _ _ _ _ _ _ hde hzero
  · intro docs dim rand normFn query k hdocs hq
    have hde : docs.isEmpty = false := by
      cases docs with
      | nil => exact absurd rfl hdocs
      | cons d t => rfl
    have hlen : ((RAGSystem.chosen_embeddings docs dim rand).map normFn).length
        = docs.length := by
      rw [List.length_map, RAGSystem.chosen_embeddings_length]
    rw [RAGSystem.build_vector_store_eq_some _ _ _ _ hde,
      RAGSystem.search_nondegenerate _ _ _ _ _ _ hlen hde hq]
    have hhitslen : (RAGSystem.faissTopK
        (((RAGSystem.chosen_embeddings docs dim rand).map normFn).map
          (fun v => RAGSystem.dot (normFn (RAGSystem.get_embedding dim query)) v))
        (min k docs.length)).length = min k docs.length := by
      rw [RAGSystem.faissTopK_length, List.length_map, hlen,
        Nat.min_eq_left (Nat.min_le_right k docs.length)]
    refine ⟨?_, ?_, ?_, ?_⟩
    · rw [List.length_map, List.enum_length, hhitslen]
    · rw [List.map_map]
      have h2 : ∀ (l : List (Nat × (Nat × ℚ))),
          l.map (fun p => some (p.1 + 1))
            = (l.map Prod.fst).map (fun i => some (i + 1)) := by
        intro l
        rw [List.map_map]
        rfl
      rw [show ((fun h : RAGSystem.SearchHit => h.rank) ∘
          (fun p : Nat × (Nat × ℚ) =>
            (⟨(docs.get? p.2.1).getD default, some p.2.2,
              some (p.1 + 1)⟩ : RAGSystem.SearchHit)))
          = fun p : Nat × (Nat × ℚ) => some (p.1 + 1) from rfl]
      rw [h2, List.enum_map_fst, hhitslen]
    · rw [List.map_map]
      have h2 : ∀ (l : List (Nat × (Nat × ℚ))),
          l.map (fun p => some p.2.2)
            = (l.map Prod.snd).map (fun q : Nat × ℚ => some q.2) := by
        intro l
        rw [List.map_map]
        rfl
      rw [show ((fun h : RAGSystem.SearchHit => h.score) ∘
          (fun p : Nat × (Nat × ℚ) =>
            (⟨(docs.get? p.2.1).getD default, some p.2.2,
              some (p.1 + 1)⟩ : RAGSystem.SearchHit)))
          = fun p : Nat × (Nat × ℚ) => some p.2.2 from rfl]
      rw [h2, List.enum_map_snd]
    · rw [List.map_map]
      have h2 : ∀ (l : List (Nat × (Nat × ℚ))),
          l.map (fun p => (docs.get? p.2.1).getD default)
            = (l.map Prod.snd).map (fun q : Nat × ℚ => (docs.get? q.1).getD default) := by
        intro l
        rw [List.map_map]
        rfl
      rw [show ((fun h : RAGSystem.SearchHit => h.doc) ∘
          (fun p : Nat × (Nat × ℚ) =>
            (⟨(docs.get? p.2.1).getD default, some p.2.2,
              some (p.1 + 1)⟩ : RAGSystem.SearchHit)))
          = fun p : Nat × (Nat × ℚ) => (docs.get? p.2.1).getD default from rfl]
      rw [h2, List.enum_map_snd]

/-- C3 witness: against the built two-document index, the non-degenerate
query "hi" with k = 1 yields exactly min(1, 2) = 1 result, and the
degenerate query "" yields the first document bare. -/
theorem C3_amended_search_witness :
    (RAGSystem.search [⟨"alpha one", "soil", "a"⟩, ⟨"beta", "crop", "b"⟩]
        (RAGSystem.build_vector_store
          [⟨"alpha one", "soil", "a"⟩, ⟨"beta", "crop", "b"⟩] 2
          (fun _ => []) (fun v => v)) 2 (fun v => v) "hi" 1).length = 1
  ∧ RAGSystem.search [⟨"alpha one", "soil", "a"⟩, ⟨"beta", "crop", "b"⟩]
        (RAGSystem.build_vector_store
          [⟨"alpha one", "soil", "a"⟩, ⟨"beta", "crop", "b"⟩] 2
          (fun _ => []) (fun v => v)) 2 (fun v => v) "" 1
      = [⟨⟨"alpha one", "soil", "a"⟩, none, none⟩] := by
  have hq : (RAGSystem.get_embedding 2 "hi").sum ≠ 0 := by
    have he : RAGSystem.get_embedding 2 "hi"
        = [(("hi".length : ℚ)) * (1 / 10), 0] := rfl
    have hl : (("hi".length : ℚ)) = 2 := by norm_num [String.length]
    rw [he]
    simp only [List.sum_cons, List.sum_nil, hl]
    norm_num
  have hz : (RAGSystem.get_embedding 2 "").sum = 0 := by
    have he : RAGSystem.get_embedding 2 "" = [0, 0] := rfl
    rw [he]
    simp
  constructor
  · have h := (C3_amended_search.2.2.2.2.2
      [⟨"alpha one", "soil", "a"⟩, ⟨"beta", "crop", "b"⟩] 2
      (fun _ => []) (fun v => v) "hi" 1 (by simp) hq).1
    simpa using h
  · have h := C3_amended_search.2.2.2.2.1
      [⟨"alpha one", "soil", "a"⟩, ⟨"beta", "crop", "b"⟩] 2
      (fun _ => []) (fun v => v) "" 1 (by simp) hz
    rw [h]
    rfl
